import Mathlib

/-!
Shallow embedding of the SolanaDEX arbitrage engine's pool-fetching core
(src/chain/token_fetch.rs, src/pump/unified.rs, src/raydium/unified.rs,
src/traits.rs), with the external collaborators (RPC client, pubkey parsing,
binary layout decoding, derived-address computation, external program-id
constants) represented as environment parameters.
-/

set_option maxRecDepth 4000

/-- On-chain addresses (`solana_sdk::pubkey::Pubkey`) modelled as naturals;
`Pubkey::default()` is 0. -/
abbrev Pubkey := Nat

/-- `solana_sdk::account::Account`, restricted to the two fields the code
reads: the owning program and the raw data bytes. -/
structure Account where
  owner : Pubkey
  data : List Nat
deriving DecidableEq, Repr

/-- `Pubkey::new_from_array` on a 32-byte array, modelled as the big-endian
natural number of the bytes (injective on 32-byte arrays). -/
def pubkeyOfBytes (bs : List Nat) : Pubkey :=
  bs.foldl (fun acc b => acc * 256 + b) 0

/-- The `TOKEN_2022_PROGRAM_ID` constant of src/chain/token_fetch.rs. -/
def TOKEN_2022_PROGRAM_ID : Pubkey :=
  pubkeyOfBytes [6, 221, 246, 225, 215, 101, 161, 147, 217, 203, 225, 70,
    206, 235, 121, 172, 28, 180, 134, 244, 64, 118, 252, 1, 16, 241, 37,
    236, 114, 157, 18, 16]

/-- `PoolInfo` of src/traits.rs: the protocol-agnostic pool descriptor.
The `HashMap<String, Pubkey>` of auxiliary accounts is modelled as an
association list with unique keys. -/
structure PoolInfo where
  pool_address : Pubkey
  token_mint : Pubkey
  base_mint : Pubkey
  token_vault : Pubkey
  base_vault : Pubkey
  fee_wallet : Option Pubkey
  additional_accounts : List (String × Pubkey)
deriving DecidableEq, Repr

/-- `HashMap::get(key).copied()` on the association-list model. -/
def lookupAux (m : List (String × Pubkey)) (k : String) : Option Pubkey :=
  (m.find? (fun p => p.1 = k)).map (fun p => p.2)

/-! ## Pump adapter (src/pump/unified.rs) -/

/-- The fields of `PumpAmmInfo` that src/pump/unified.rs reads after
`load_checked` (the layout decoder itself lives outside src/ and is an
environment parameter). -/
structure PumpAmmInfo where
  base_mint : Pubkey
  quote_mint : Pubkey
  pool_base_token_account : Pubkey
  pool_quote_token_account : Pubkey
  coin_creator_vault_authority : Pubkey
deriving DecidableEq, Repr

/-- Environment of `PumpDex`: the RPC account reader, pubkey parsing, the
`PumpAmmInfo::load_checked` decoder, the constants `pump_program_id()`,
`sol_mint()`, `pump_fee_wallet()`, and
`spl_associated_token_account::get_associated_token_address`. -/
structure PumpEnv where
  parsePk : String → Except String Pubkey
  getAccount : Pubkey → Except String Account
  loadChecked : List Nat → Except String PumpAmmInfo
  programId : Pubkey
  solMint : Pubkey
  feeWallet : Pubkey
  ata : Pubkey → Pubkey → Pubkey

/-- `PumpDex::fetch_single_pool` of src/pump/unified.rs, lines 56-105:
parse the address, read the account, reject on foreign owner, decode the
layout, pick the vault pair by which side holds the SOL mint, derive the
fee wallet and creator-vault ATA, and orient `token_mint`/`base_mint` by
the queried mint. -/
def PumpEnv.fetchSinglePool (env : PumpEnv) (poolAddress : String)
    (tokenMint : Pubkey) : Except String PoolInfo := do
  let poolPubkey ← env.parsePk poolAddress
  let account ← env.getAccount poolPubkey
  if account.owner ≠ env.programId then
    .error ("Account is not owned by Pump program: " ++ poolAddress)
  else do
    let ammInfo ← env.loadChecked account.data
    let vaults :=
      if env.solMint = ammInfo.base_mint then
        (ammInfo.pool_base_token_account, ammInfo.pool_quote_token_account)
      else if env.solMint = ammInfo.quote_mint then
        (ammInfo.pool_quote_token_account, ammInfo.pool_base_token_account)
      else
        (ammInfo.pool_base_token_account, ammInfo.pool_quote_token_account)
    let fee_token_wallet := env.ata env.feeWallet ammInfo.quote_mint
    let coin_creator_vault_ata :=
      env.ata ammInfo.coin_creator_vault_authority ammInfo.quote_mint
    let mints :=
      if tokenMint = ammInfo.base_mint then
        (ammInfo.base_mint, ammInfo.quote_mint)
      else
        (ammInfo.quote_mint, ammInfo.base_mint)
    .ok { pool_address := poolPubkey
          token_mint := mints.1
          base_mint := mints.2
          token_vault := vaults.1
          base_vault := vaults.2
          fee_wallet := some fee_token_wallet
          additional_accounts :=
            [("coin_creator_vault_ata", coin_creator_vault_ata)] }

/-- The accumulation loop of `PumpDex::fetch_pools` (src/pump/unified.rs,
lines 20-33): push each successful single-pool fetch, log and skip each
failed one. -/
def pumpCollect (env : PumpEnv) (tokenMint : Pubkey) :
    List String → List PoolInfo
  | [] => []
  | a :: rest =>
    match env.fetchSinglePool a tokenMint with
    | .ok p => p :: pumpCollect env tokenMint rest
    | .error _ => pumpCollect env tokenMint rest

/-- `PumpDex::fetch_pools`: always returns `Ok` with the collected pools. -/
def PumpEnv.fetchPools (env : PumpEnv) (poolAddresses : List String)
    (tokenMint : Pubkey) : Except String (List PoolInfo) :=
  .ok (pumpCollect env tokenMint poolAddresses)

/-! ## Raydium adapter (src/raydium/unified.rs) -/

/-- The fields of `RaydiumAmmInfo` that src/raydium/unified.rs reads after
`load_checked`. -/
structure RaydiumAmmInfo where
  coin_mint : Pubkey
  pc_mint : Pubkey
  coin_vault : Pubkey
  pc_vault : Pubkey
deriving DecidableEq, Repr

/-- Environment of `RaydiumDex`: RPC reader, pubkey parsing, the
`RaydiumAmmInfo::load_checked` decoder, `raydium_program_id()` and
`sol_mint()`. -/
structure RaydiumEnv where
  parsePk : String → Except String Pubkey
  getAccount : Pubkey → Except String Account
  loadChecked : List Nat → Except String RaydiumAmmInfo
  programId : Pubkey
  solMint : Pubkey

/-- `RaydiumDex::fetch_single_pool` of src/raydium/unified.rs, lines
56-92. -/
def RaydiumEnv.fetchSinglePool (env : RaydiumEnv) (poolAddress : String)
    (tokenMint : Pubkey) : Except String PoolInfo := do
  let poolPubkey ← env.parsePk poolAddress
  let account ← env.getAccount poolPubkey
  if account.owner ≠ env.programId then
    .error ("Account is not owned by Raydium program: " ++ poolAddress)
  else do
    let ammInfo ← env.loadChecked account.data
    let vaults :=
      if env.solMint = ammInfo.coin_mint then
        (ammInfo.coin_vault, ammInfo.pc_vault)
      else if env.solMint = ammInfo.pc_mint then
        (ammInfo.pc_vault, ammInfo.coin_vault)
      else
        (ammInfo.coin_vault, ammInfo.pc_vault)
    let mints :=
      if tokenMint = ammInfo.coin_mint then
        (ammInfo.coin_mint, ammInfo.pc_mint)
      else
        (ammInfo.pc_mint, ammInfo.coin_mint)
    .ok { pool_address := poolPubkey
          token_mint := mints.1
          base_mint := mints.2
          token_vault := vaults.1
          base_vault := vaults.2
          fee_wallet := none
          additional_accounts := [] }

/-- The accumulation loop of `RaydiumDex::fetch_pools` (src/raydium/unified.rs,
lines 19-32). -/
def raydiumCollect (env : RaydiumEnv) (tokenMint : Pubkey) :
    List String → List PoolInfo
  | [] => []
  | a :: rest =>
    match env.fetchSinglePool a tokenMint with
    | .ok p => p :: raydiumCollect env tokenMint rest
    | .error _ => raydiumCollect env tokenMint rest

/-- `RaydiumDex::fetch_pools`: always returns `Ok` with the collected
pools. -/
def RaydiumEnv.fetchPools (env : RaydiumEnv) (poolAddresses : List String)
    (tokenMint : Pubkey) : Except String (List PoolInfo) :=
  .ok (raydiumCollect env tokenMint poolAddresses)

/-! ## Legacy pool record shapes and the aggregate (src/chain/pools.rs,
absent from the sources; fields determined by the construction code of
`convert_and_add_pools` in src/chain/token_fetch.rs) -/

/-- `PumpPool` of src/chain/pools.rs: the legacy Pump record, with exactly
the fields assigned in src/chain/token_fetch.rs lines 218-230. -/
structure PumpPool where
  pool : Pubkey
  token_vault : Pubkey
  sol_vault : Pubkey
  fee_token_wallet : Pubkey
  coin_creator_vault_ata : Pubkey
  coin_creator_vault_authority : Pubkey
  token_mint : Pubkey
  base_mint : Pubkey
deriving DecidableEq, Repr

/-- `RaydiumPool` of src/chain/pools.rs: the legacy Raydium record, with
exactly the fields assigned in src/chain/token_fetch.rs lines 236-242. -/
structure RaydiumPool where
  pool : Pubkey
  token_vault : Pubkey
  sol_vault : Pubkey
  token_mint : Pubkey
  base_mint : Pubkey
deriving DecidableEq, Repr

/-- Modelled from the spec: `MintPoolData` (src/chain/pools.rs is not among
the sources) — "aggregate keyed by `(mint, wallet)`: the resolved
token-program identifier plus one ordered list of pool records per supported
exchange", restricted to the two exchanges the orchestrator loop handles. -/
structure MintPoolData where
  mint : String
  wallet : String
  token_program : Pubkey
  pump_pools : List PumpPool
  raydium_pools : List RaydiumPool
deriving DecidableEq, Repr

/-- Modelled from the spec: `MintPoolData::new(mint, wallet, token_program)`
— spec §4.7 `AggregateInit` "constructs an empty MintPoolData for
`(mint, wallet, token-program)`" and lists no failure transition for this
state. -/
def MintPoolData.new (mint wallet : String) (tokenProgram : Pubkey) :
    MintPoolData :=
  { mint := mint, wallet := wallet, token_program := tokenProgram,
    pump_pools := [], raydium_pools := [] }

/-- The `PumpPool` built from one `PoolInfo` in `convert_and_add_pools`
(src/chain/token_fetch.rs lines 218-230), given the already-extracted
`coin_creator_vault_ata`. -/
def poolInfoToPumpPool (pi : PoolInfo) (ccva : Pubkey) : PumpPool :=
  { pool := pi.pool_address
    token_vault := pi.token_vault
    sol_vault := pi.base_vault
    fee_token_wallet := pi.fee_wallet.getD 0
    coin_creator_vault_ata := ccva
    coin_creator_vault_authority :=
      (lookupAux pi.additional_accounts "coin_creator_vault_authority").getD 0
    token_mint := pi.token_mint
    base_mint := pi.base_mint }

/-- The `RaydiumPool` built from one `PoolInfo` in `convert_and_add_pools`
(src/chain/token_fetch.rs lines 236-242). -/
def poolInfoToRaydiumPool (pi : PoolInfo) : RaydiumPool :=
  { pool := pi.pool_address
    token_vault := pi.token_vault
    sol_vault := pi.base_vault
    token_mint := pi.token_mint
    base_mint := pi.base_mint }

/-- The Pump branch of `convert_and_add_pools`: for each pool, require the
`coin_creator_vault_ata` auxiliary key; its absence fails the whole
conversion with the error of src/chain/token_fetch.rs line 216. -/
def convertPumpPools : List PoolInfo → Except String (List PumpPool)
  | [] => .ok []
  | pi :: rest =>
    match lookupAux pi.additional_accounts "coin_creator_vault_ata" with
    | none => .error "Missing coin_creator_vault_ata for Pump pool"
    | some ccva => do
      let tail ← convertPumpPools rest
      .ok (poolInfoToPumpPool pi ccva :: tail)

/-- `convert_and_add_pools` of src/chain/token_fetch.rs lines 208-251:
append converted records to the aggregate by exchange name; unknown names
are logged and ignored. On a conversion error the partially mutated
aggregate is discarded by the caller (the call aborts), so the error branch
carries no state. -/
def convertAndAddPools (poolData : MintPoolData) (dexName : String)
    (pools : List PoolInfo) : Except String MintPoolData :=
  match dexName with
  | "pump" => do
    let converted ← convertPumpPools pools
    .ok { poolData with pump_pools := poolData.pump_pools ++ converted }
  | "raydium" =>
    .ok { poolData with
          raydium_pools :=
            poolData.raydium_pools ++ pools.map poolInfoToRaydiumPool }
  | _ => .ok poolData

/-! ## Retrying account fetcher (src/chain/token_fetch.rs lines 169-194) -/

/-- Observable events of one orchestrator call: an RPC account read (with
its attempt index), a retry sleep (with its duration in ms), and a
per-exchange `fetch_pools` call. -/
inductive Ev where
  | readEv (attempt : Nat)
  | sleepEv (ms : Nat)
  | poolFetchEv (dexName : String)
deriving DecidableEq, Repr

/-- Number of account-read events in a trace. -/
def readsOf (evs : List Ev) : Nat :=
  evs.countP (fun e => match e with | .readEv _ => true | _ => false)

/-- The durations of the sleep events of a trace, in order. -/
def sleepsOf (evs : List Ev) : List Nat :=
  evs.filterMap (fun e => match e with | .sleepEv ms => some ms | _ => none)

/-- Whether a trace contains any per-exchange pool-fetch call. -/
def hasPoolFetch (evs : List Ev) : Bool :=
  evs.any (fun e => match e with | .poolFetchEv _ => true | _ => false)

/-- The failure value of `fetch_account_with_retry`: the anyhow error of
src/chain/token_fetch.rs lines 188-193 carries the queried address, the
attempt count and the last underlying error. -/
structure RetryFailure where
  address : Pubkey
  attempts : Nat
  lastError : Option String
deriving DecidableEq, Repr

/-- The loop of `fetch_account_with_retry` (src/chain/token_fetch.rs lines
172-186), recursing on the number of remaining attempts; `attempt` is the
index of the next attempt and `read` gives the account reader's response to
each attempt. A sleep of `retry_delay_ms` separates consecutive failed
attempts (`attempt < max_retries - 1`, i.e. remaining attempts after this
one). -/
def fetchRetryAux (read : Nat → Except String Account) (pk : Pubkey)
    (maxRetries delayMs : Nat) :
    Nat → Nat → Option String → Except RetryFailure Account × List Ev
  | 0, _, lastError =>
    (.error { address := pk, attempts := maxRetries, lastError := lastError },
     [])
  | r + 1, attempt, _ =>
    match read attempt with
    | .ok account => (.ok account, [.readEv attempt])
    | .error e =>
      let tail := fetchRetryAux read pk maxRetries delayMs r (attempt + 1)
        (some e)
      let evs := if r = 0 then [Ev.readEv attempt]
        else [Ev.readEv attempt, Ev.sleepEv delayMs]
      (tail.1, evs ++ tail.2)

/-- `fetch_account_with_retry` of src/chain/token_fetch.rs lines 169-194:
up to `max_retries` attempts starting at attempt 0 with no recorded error. -/
def fetchAccountWithRetry (read : Nat → Except String Account) (pk : Pubkey)
    (maxRetries delayMs : Nat) : Except RetryFailure Account × List Ev :=
  fetchRetryAux read pk maxRetries delayMs maxRetries 0 none

/-- Rendering of the exhaustion error into the anyhow message of
src/chain/token_fetch.rs lines 188-193. -/
def renderRetryFailure (f : RetryFailure) : String :=
  "Failed to fetch account " ++ toString f.address ++ " after " ++
    toString f.attempts ++ " attempts: " ++ toString f.lastError

/-! ## TTL cache and orchestrator (src/chain/token_fetch.rs lines 30-166) -/

/-- `TokenFetchConfig` of src/chain/token_fetch.rs lines 31-39; the
`Instant`-based ages are modelled in whole seconds. -/
structure TokenFetchConfig where
  max_retries : Nat
  retry_delay_ms : Nat
  batch_size : Nat
  timeout_seconds : Nat
  enable_caching : Bool
  cache_ttl_seconds : Nat
deriving DecidableEq, Repr

/-- `TokenFetchConfig::default()` (src/chain/token_fetch.rs lines 41-52). -/
def TokenFetchConfig.default : TokenFetchConfig :=
  { max_retries := 3, retry_delay_ms := 1000, batch_size := 10,
    timeout_seconds := 30, enable_caching := true, cache_ttl_seconds := 300 }

/-- `CacheEntry` of src/chain/token_fetch.rs lines 55-59, with the
`Instant` timestamp as seconds since an arbitrary origin. -/
structure CacheEntry where
  data : MintPoolData
  timestamp : Nat
deriving DecidableEq, Repr

/-- The `HashMap<String, CacheEntry>` cache, modelled as an association
list with unique keys. -/
abbrev Cache := List (String × CacheEntry)

/-- `HashMap::get` on the cache model. -/
def cacheLookup (c : Cache) (k : String) : Option CacheEntry :=
  (c.find? (fun p => p.1 = k)).map (fun p => p.2)

/-- `HashMap::insert` on the cache model: replace any entry at the key. -/
def cacheInsert (c : Cache) (k : String) (e : CacheEntry) : Cache :=
  (k, e) :: c.filter (fun p => p.1 ≠ k)

/-- The cache key `format!("{}_{}", mint, wallet_account)` of
src/chain/token_fetch.rs line 93. -/
def cacheKey (mint walletAccount : String) : String :=
  mint ++ "_" ++ walletAccount

/-- `determine_token_program` of src/chain/token_fetch.rs lines 197-205,
with the external `spl_token::ID` constant as a parameter and the in-source
`TOKEN_2022_PROGRAM_ID` constant inlined. -/
def determineTokenProgram (splTokenId : Pubkey) (mintAccount : Account)
    (mint : String) : Except String Pubkey :=
  if mintAccount.owner = splTokenId then
    .ok splTokenId
  else if mintAccount.owner = TOKEN_2022_PROGRAM_ID then
    .ok TOKEN_2022_PROGRAM_ID
  else
    .error ("Unknown token program for mint: " ++ mint)

/-- Environment of the orchestrator (`TokenFetcher`): pubkey parsing, the
per-attempt RPC account reader, the external `spl_token::ID` constant, and
the `fetch_pools` behavior of the two registered `Dex` implementations
(the trait objects behind `DexRegistry`). -/
structure OrchEnv where
  parsePk : String → Except String Pubkey
  readAccount : Pubkey → Nat → Except String Account
  splTokenId : Pubkey
  pumpFetchPools : List String → Pubkey → Except String (List PoolInfo)
  raydiumFetchPools : List String → Pubkey → Except String (List PoolInfo)

/-- `DexRegistry::get` after the two `register` calls of
src/chain/token_fetch.rs lines 120-122: only "pump" and "raydium" are
registered. -/
def dexFetchOf (env : OrchEnv) :
    String → Option (List String → Pubkey → Except String (List PoolInfo))
  | "pump" => some env.pumpFetchPools
  | "raydium" => some env.raydiumFetchPools
  | _ => none

/-- The per-exchange loop of `initialize_pool_data`
(src/chain/token_fetch.rs lines 131-146): for each `(name, Some list)`
entry look the adapter up; on a successful fetch convert and append — a
conversion error propagates through `?` and aborts the loop — and on a
fetch error log and continue. Returns the final aggregate or the aborting
error, plus the pool-fetch events. -/
def runDexes (env : OrchEnv) (mintPubkey : Pubkey) :
    MintPoolData → List (String × Option (List String)) →
    Except String MintPoolData × List Ev
  | pd, [] => (.ok pd, [])
  | pd, (_, none) :: rest => runDexes env mintPubkey pd rest
  | pd, (dexName, some addrs) :: rest =>
    match dexFetchOf env dexName with
    | none => runDexes env mintPubkey pd rest
    | some fetch =>
      match fetch addrs mintPubkey with
      | .ok pools =>
        match convertAndAddPools pd dexName pools with
        | .ok pd' =>
          let tail := runDexes env mintPubkey pd' rest
          (tail.1, Ev.poolFetchEv dexName :: tail.2)
        | .error e => (.error e, [Ev.poolFetchEv dexName])
      | .error _ =>
        let tail := runDexes env mintPubkey pd rest
        (tail.1, Ev.poolFetchEv dexName :: tail.2)

/-- Result of one orchestrator call: the returned value, the cache after
the call, and the observable event trace. -/
structure OrchOut where
  result : Except String MintPoolData
  cache : Cache
  events : List Ev
deriving Repr

/-- The cache-miss path of `initialize_pool_data` (src/chain/token_fetch.rs
lines 105-165): parse the mint, fetch its account with retry, resolve the
token program, build the empty aggregate, run the per-exchange loop in the
fixed order `[("pump", pump_pools), ("raydium", raydium_pools)]`, and on
success write the snapshot into the cache (when caching is enabled). All
error paths leave the cache untouched. -/
def initializeFresh (env : OrchEnv) (cfg : TokenFetchConfig) (cache : Cache)
    (now : Nat) (mint walletAccount : String)
    (raydiumPools pumpPools : Option (List String)) : OrchOut :=
  match env.parsePk mint with
  | .error e => { result := .error e, cache := cache, events := [] }
  | .ok mintPubkey =>
    match (fetchAccountWithRetry (env.readAccount mintPubkey) mintPubkey
        cfg.max_retries cfg.retry_delay_ms).1 with
    | .error f =>
      { result := .error (renderRetryFailure f), cache := cache,
        events := (fetchAccountWithRetry (env.readAccount mintPubkey)
          mintPubkey cfg.max_retries cfg.retry_delay_ms).2 }
    | .ok mintAccount =>
      match determineTokenProgram env.splTokenId mintAccount mint with
      | .error e =>
        { result := .error e, cache := cache,
          events := (fetchAccountWithRetry (env.readAccount mintPubkey)
            mintPubkey cfg.max_retries cfg.retry_delay_ms).2 }
      | .ok tokenProgram =>
        match (runDexes env mintPubkey
            (MintPoolData.new mint walletAccount tokenProgram)
            [("pump", pumpPools), ("raydium", raydiumPools)]).1 with
        | .error e =>
          { result := .error e, cache := cache,
            events := (fetchAccountWithRetry (env.readAccount mintPubkey)
              mintPubkey cfg.max_retries cfg.retry_delay_ms).2 ++
              (runDexes env mintPubkey
                (MintPoolData.new mint walletAccount tokenProgram)
                [("pump", pumpPools), ("raydium", raydiumPools)]).2 }
        | .ok pd =>
          { result := .ok pd,
            cache := if cfg.enable_caching then
                cacheInsert cache (cacheKey mint walletAccount)
                  { data := pd, timestamp := now }
              else cache,
            events := (fetchAccountWithRetry (env.readAccount mintPubkey)
              mintPubkey cfg.max_retries cfg.retry_delay_ms).2 ++
              (runDexes env mintPubkey
                (MintPoolData.new mint walletAccount tokenProgram)
                [("pump", pumpPools), ("raydium", raydiumPools)]).2 }

/-- `initialize_pool_data` of src/chain/token_fetch.rs lines 78-166: when
caching is enabled and a cache entry younger than `cache_ttl_seconds`
exists for `mint ++ "_" ++ wallet`, return its snapshot with no further
work; otherwise run the full fetch. Only the `pump_pools` and
`raydium_pools` arguments are consulted by the loop (the other eight pool
lists of the signature are accepted and ignored). -/
def initializePoolData (env : OrchEnv) (cfg : TokenFetchConfig)
    (cache : Cache) (now : Nat) (mint walletAccount : String)
    (raydiumPools pumpPools : Option (List String)) : OrchOut :=
  let key := cacheKey mint walletAccount
  if cfg.enable_caching then
    match cacheLookup cache key with
    | some entry =>
      if now - entry.timestamp < cfg.cache_ttl_seconds then
        { result := .ok entry.data, cache := cache, events := [] }
      else
        initializeFresh env cfg cache now mint walletAccount raydiumPools
          pumpPools
    | none =>
      initializeFresh env cfg cache now mint walletAccount raydiumPools
        pumpPools
  else
    initializeFresh env cfg cache now mint walletAccount raydiumPools
      pumpPools

/-! ## Helper lemmas -/

theorem readsOf_append (l₁ l₂ : List Ev) :
    readsOf (l₁ ++ l₂) = readsOf l₁ + readsOf l₂ := by
  simp [readsOf, List.countP_append]

theorem sleepsOf_append (l₁ l₂ : List Ev) :
    sleepsOf (l₁ ++ l₂) = sleepsOf l₁ ++ sleepsOf l₂ := by
  simp [sleepsOf, List.filterMap_append]

theorem fetchRetryAux_zero (read : Nat → Except String Account)
    (pk : Pubkey) (M d a : Nat) (le : Option String) :
    fetchRetryAux read pk M d 0 a le =
      (.error { address := pk, attempts := M, lastError := le }, []) := rfl

theorem fetchRetryAux_step_err (read : Nat → Except String Account)
    (pk : Pubkey) (M d k a : Nat) (le : Option String) (e : String)
    (he : read a = .error e) :
    fetchRetryAux read pk M d (k + 1) a le =
      ((fetchRetryAux read pk M d k (a + 1) (some e)).1,
       (if k = 0 then [Ev.readEv a] else [Ev.readEv a, Ev.sleepEv d]) ++
         (fetchRetryAux read pk M d k (a + 1) (some e)).2) := by
  conv_lhs => rw [fetchRetryAux]
  rw [he]

theorem fetchRetryAux_step_ok (read : Nat → Except String Account)
    (pk : Pubkey) (M d k a : Nat) (le : Option String) (acct : Account)
    (he : read a = .ok acct) :
    fetchRetryAux read pk M d (k + 1) a le = (.ok acct, [Ev.readEv a]) := by
  conv_lhs => rw [fetchRetryAux]
  rw [he]

theorem fetchRetryAux_allFail (read : Nat → Except String Account)
    (pk : Pubkey) (M d : Nat) (es : Nat → String)
    (h : ∀ i, read i = .error (es i)) :
    ∀ r a le,
      (fetchRetryAux read pk M d (r + 1) a le).1 =
        .error { address := pk, attempts := M,
                 lastError := some (es (a + r)) } ∧
      readsOf (fetchRetryAux read pk M d (r + 1) a le).2 = r + 1 ∧
      sleepsOf (fetchRetryAux read pk M d (r + 1) a le).2 =
        List.replicate r d := by
  intro r
  induction r with
  | zero =>
    intro a le
    rw [fetchRetryAux_step_err read pk M d 0 a le (es a) (h a)]
    simp [fetchRetryAux_zero, readsOf, sleepsOf]
  | succ r ih =>
    intro a le
    rcases ih (a + 1) (some (es a)) with ⟨h1, h2, h3⟩
    have hsh : a + 1 + r = a + (r + 1) := by omega
    rw [hsh] at h1
    rw [fetchRetryAux_step_err read pk M d (r + 1) a le (es a) (h a)]
    refine ⟨h1, ?_, ?_⟩
    · rw [if_neg (Nat.succ_ne_zero r), readsOf_append, h2]
      simp [readsOf, List.countP_cons]
      omega
    · rw [if_neg (Nat.succ_ne_zero r), sleepsOf_append, h3]
      simp [sleepsOf, List.replicate_succ]

theorem fetchRetryAux_firstSuccess (read : Nat → Except String Account)
    (pk : Pubkey) (M d : Nat) (acct : Account) :
    ∀ j r a le, j < r → read (a + j) = .ok acct →
      (∀ i, i < j → ∃ e, read (a + i) = .error e) →
      (fetchRetryAux read pk M d r a le).1 = .ok acct ∧
      readsOf (fetchRetryAux read pk M d r a le).2 = j + 1 ∧
      sleepsOf (fetchRetryAux read pk M d r a le).2 = List.replicate j d := by
  intro j
  induction j with
  | zero =>
    intro r a le hjr hok _
    match r, hjr with
    | r' + 1, _ =>
      simp only [Nat.add_zero] at hok
      rw [fetchRetryAux_step_ok read pk M d r' a le acct hok]
      simp [readsOf, sleepsOf]
  | succ j ih =>
    intro r a le hjr hok hbefore
    match r, hjr with
    | r' + 1, hjr =>
      rcases hbefore 0 (Nat.succ_pos j) with ⟨e, he⟩
      simp only [Nat.add_zero] at he
      have hjr' : j < r' := by omega
      have hr'0 : r' ≠ 0 := by omega
      have hok' : read (a + 1 + j) = .ok acct := by
        have : a + 1 + j = a + (j + 1) := by omega
        rw [this]; exact hok
      have hbefore' : ∀ i, i < j → ∃ e, read (a + 1 + i) = .error e := by
        intro i hi
        have : a + 1 + i = a + (i + 1) := by omega
        rw [this]
        exact hbefore (i + 1) (by omega)
      rcases ih r' (a + 1) (some e) hjr' hok' hbefore' with ⟨h1, h2, h3⟩
      rw [fetchRetryAux_step_err read pk M d r' a le e he]
      refine ⟨h1, ?_, ?_⟩
      · rw [if_neg hr'0, readsOf_append, h2]
        simp [readsOf, List.countP_cons]
        omega
      · rw [if_neg hr'0, sleepsOf_append, h3]
        simp [sleepsOf, List.replicate_succ]

/-- C4: with `max_retries ≥ 1`, an account reader that fails on every
attempt makes `fetch_account_with_retry` perform exactly `max_retries`
reads separated by exactly `max_retries - 1` sleeps of `retry_delay_ms`
and fail with the queried address and the last underlying error; and if
the reader first succeeds at attempt `j < max_retries`, the account is
returned after exactly `j + 1` reads and `j` sleeps (none after the
successful read). -/
theorem fetch_account_with_retry_spec (read : Nat → Except String Account)
    (pk : Pubkey) (M d : Nat) (hM : 1 ≤ M) :
    ((∀ i, ∃ e, read i = .error e) →
      ∃ e, read (M - 1) = .error e ∧
        (fetchAccountWithRetry read pk M d).1 =
          .error { address := pk, attempts := M, lastError := some e } ∧
        readsOf (fetchAccountWithRetry read pk M d).2 = M ∧
        sleepsOf (fetchAccountWithRetry read pk M d).2 =
          List.replicate (M - 1) d) ∧
    (∀ j acct, j < M → read j = .ok acct →
      (∀ i, i < j → ∃ e, read i = .error e) →
      (fetchAccountWithRetry read pk M d).1 = .ok acct ∧
      readsOf (fetchAccountWithRetry read pk M d).2 = j + 1 ∧
      sleepsOf (fetchAccountWithRetry read pk M d).2 =
        List.replicate j d) := by
  constructor
  · intro hfail
    choose es hes using hfail
    match M, hM with
    | m + 1, _ =>
      rcases fetchRetryAux_allFail read pk (m + 1) d es hes m 0 none with
        ⟨h1, h2, h3⟩
      refine ⟨es m, hes m, ?_, ?_, ?_⟩
      · simpa [fetchAccountWithRetry] using h1
      · simpa [fetchAccountWithRetry] using h2
      · simpa [fetchAccountWithRetry] using h3
  · intro j acct hj hok hbefore
    have hok' : read (0 + j) = .ok acct := by simpa using hok
    have hbefore' : ∀ i, i < j → ∃ e, read (0 + i) = .error e := by
      intro i hi; simpa using hbefore i hi
    exact fetchRetryAux_firstSuccess read pk M d acct j M 0 none hj hok'
      hbefore'

/-- Witness for C4 at a concrete always-failing reader and a concrete
reader succeeding on the second attempt, with `max_retries = 3`. -/
theorem fetch_account_with_retry_spec_witness :
    (∃ e, (fun _ : Nat => (.error "boom" : Except String Account)) (3 - 1)
        = .error e ∧
      (fetchAccountWithRetry (fun _ => .error "boom") 42 3 1000).1 =
        .error { address := 42, attempts := 3, lastError := some e } ∧
      readsOf (fetchAccountWithRetry (fun _ => .error "boom") 42 3 1000).2
        = 3 ∧
      sleepsOf (fetchAccountWithRetry (fun _ => .error "boom") 42 3 1000).2
        = List.replicate (3 - 1) 1000) ∧
    ((fetchAccountWithRetry
        (fun i => if i = 1 then .ok ⟨7, []⟩ else .error "x") 42 3 1000).1 =
      .ok ⟨7, []⟩ ∧
     readsOf (fetchAccountWithRetry
        (fun i => if i = 1 then .ok ⟨7, []⟩ else .error "x") 42 3 1000).2
        = 1 + 1 ∧
     sleepsOf (fetchAccountWithRetry
        (fun i => if i = 1 then .ok ⟨7, []⟩ else .error "x") 42 3 1000).2
        = List.replicate 1 1000) := by
  constructor
  · exact (fetch_account_with_retry_spec (fun _ => .error "boom") 42 3 1000
      (by decide)).1 (fun i => ⟨"boom", rfl⟩)
  · exact (fetch_account_with_retry_spec
      (fun i => if i = 1 then .ok ⟨7, []⟩ else .error "x") 42 3 1000
      (by decide)).2 1 ⟨7, []⟩ (by decide) rfl
      (fun i hi => ⟨"x", by
        have hi0 : i = 0 := by omega
        subst hi0
        rfl⟩)

theorem except_bind_ok {α β ε : Type} (a : α) (f : α → Except ε β) :
    (Except.ok a : Except ε α) >>= f = f a := rfl

theorem except_bind_err {α β ε : Type} (e : ε) (f : α → Except ε β) :
    (Except.error e : Except ε α) >>= f = .error e := rfl

theorem pumpCollect_append (env : PumpEnv) (tm : Pubkey)
    (l₁ l₂ : List String) :
    pumpCollect env tm (l₁ ++ l₂) =
      pumpCollect env tm l₁ ++ pumpCollect env tm l₂ := by
  induction l₁ with
  | nil => rfl
  | cons a rest ih =>
    simp only [List.cons_append, pumpCollect]
    cases env.fetchSinglePool a tm with
    | ok p => simp [ih]
    | error e => simp [ih]

theorem raydiumCollect_append (env : RaydiumEnv) (tm : Pubkey)
    (l₁ l₂ : List String) :
    raydiumCollect env tm (l₁ ++ l₂) =
      raydiumCollect env tm l₁ ++ raydiumCollect env tm l₂ := by
  induction l₁ with
  | nil => rfl
  | cons a rest ih =>
    simp only [List.cons_append, raydiumCollect]
    cases env.fetchSinglePool a tm with
    | ok p => simp [ih]
    | error e => simp [ih]

/-- The vault of the pool side whose mint is `m`, resolved the way the Pump
adapter resolves sides (base side first). -/
def PumpAmmInfo.sideVault (amm : PumpAmmInfo) (m : Pubkey) : Pubkey :=
  if m = amm.base_mint then amm.pool_base_token_account
  else amm.pool_quote_token_account

/-- The vault of the side opposite to the side whose mint is `m` (Pump). -/
def PumpAmmInfo.otherVault (amm : PumpAmmInfo) (m : Pubkey) : Pubkey :=
  if m = amm.base_mint then amm.pool_quote_token_account
  else amm.pool_base_token_account

/-- The vault of the pool side whose mint is `m`, resolved the way the
Raydium adapter resolves sides (coin side first). -/
def RaydiumAmmInfo.sideVault (amm : RaydiumAmmInfo) (m : Pubkey) : Pubkey :=
  if m = amm.coin_mint then amm.coin_vault else amm.pc_vault

/-- The vault of the side opposite to the side whose mint is `m`
(Raydium). -/
def RaydiumAmmInfo.otherVault (amm : RaydiumAmmInfo) (m : Pubkey) : Pubkey :=
  if m = amm.coin_mint then amm.pc_vault else amm.coin_vault

/-- Concrete Pump layout used by witnesses: base mint 1 (= SOL), quote
mint 2, base-side vault 11, quote-side vault 12, creator authority 5. -/
def ammP : PumpAmmInfo :=
  { base_mint := 1, quote_mint := 2, pool_base_token_account := 11,
    pool_quote_token_account := 12, coin_creator_vault_authority := 5 }

/-- Concrete Pump environment used by witnesses. -/
def pumpEnvC : PumpEnv :=
  { parsePk := fun _ => .ok 100, getAccount := fun _ => .ok ⟨7, []⟩,
    loadChecked := fun _ => .ok ammP, programId := 7, solMint := 1,
    feeWallet := 9, ata := fun a b => a * 1000 + b }

/-- Concrete Raydium layout used by witnesses: coin mint 1 (= SOL), pc
mint 2, coin vault 21, pc vault 22. -/
def ammR : RaydiumAmmInfo :=
  { coin_mint := 1, pc_mint := 2, coin_vault := 21, pc_vault := 22 }

/-- Concrete Raydium environment used by witnesses. -/
def raydiumEnvC : RaydiumEnv :=
  { parsePk := fun _ => .ok 200, getAccount := fun _ => .ok ⟨8, []⟩,
    loadChecked := fun _ => .ok ammR, programId := 8, solMint := 1 }

/-- C3: in both adapters, whenever the single-pool fetch succeeds and the
queried mint equals one of the decoded pool's two mints, the produced
descriptor has `token_mint` equal to the queried mint and `base_mint` equal
to the pool's other mint, for both on-chain orderings of the sides. -/
theorem mint_orientation_spec :
    (∀ (env : PumpEnv) (addr : String) (pk : Pubkey) (acct : Account)
      (amm : PumpAmmInfo) (tm : Pubkey),
      env.parsePk addr = .ok pk →
      env.getAccount pk = .ok acct →
      acct.owner = env.programId →
      env.loadChecked acct.data = .ok amm →
      tm = amm.base_mint ∨ tm = amm.quote_mint →
      (env.fetchSinglePool addr tm).toOption.map
          (fun pi => (pi.token_mint, pi.base_mint)) =
        some (tm, if tm = amm.base_mint then amm.quote_mint
                  else amm.base_mint)) ∧
    (∀ (env : RaydiumEnv) (addr : String) (pk : Pubkey) (acct : Account)
      (amm : RaydiumAmmInfo) (tm : Pubkey),
      env.parsePk addr = .ok pk →
      env.getAccount pk = .ok acct →
      acct.owner = env.programId →
      env.loadChecked acct.data = .ok amm →
      tm = amm.coin_mint ∨ tm = amm.pc_mint →
      (env.fetchSinglePool addr tm).toOption.map
          (fun pi => (pi.token_mint, pi.base_mint)) =
        some (tm, if tm = amm.coin_mint then amm.pc_mint
                  else amm.coin_mint)) := by
  constructor
  · intro env addr pk acct amm tm h1 h2 h3 h4 h5
    by_cases htb : tm = amm.base_mint
    · simp [PumpEnv.fetchSinglePool, h1, h2, h3, h4, htb, except_bind_ok,
        Except.toOption]
    · rcases h5 with h5 | h5
      · exact absurd h5 htb
      · have hqb : ¬amm.quote_mint = amm.base_mint :=
          fun hq => htb (h5.trans hq)
        simp [PumpEnv.fetchSinglePool, h1, h2, h3, h4, htb, h5, hqb,
          except_bind_ok, Except.toOption]
  · intro env addr pk acct amm tm h1 h2 h3 h4 h5
    by_cases htb : tm = amm.coin_mint
    · simp [RaydiumEnv.fetchSinglePool, h1, h2, h3, h4, htb, except_bind_ok,
        Except.toOption]
    · rcases h5 with h5 | h5
      · exact absurd h5 htb
      · have hqb : ¬amm.pc_mint = amm.coin_mint :=
          fun hq => htb (h5.trans hq)
        simp [RaydiumEnv.fetchSinglePool, h1, h2, h3, h4, htb, h5, hqb,
          except_bind_ok, Except.toOption]

/-- Witness for C3: querying mint 2 — the quote (resp. pc) side — of the
concrete pools yields `token_mint = 2` and `base_mint = 1` in both
adapters. -/
theorem mint_orientation_spec_witness :
    (pumpEnvC.fetchSinglePool "P" 2).toOption.map
        (fun pi => (pi.token_mint, pi.base_mint)) =
      some (2, if (2 : Pubkey) = ammP.base_mint then ammP.quote_mint
               else ammP.base_mint) ∧
    (raydiumEnvC.fetchSinglePool "R" 2).toOption.map
        (fun pi => (pi.token_mint, pi.base_mint)) =
      some (2, if (2 : Pubkey) = ammR.coin_mint then ammR.pc_mint
               else ammR.coin_mint) := by
  constructor
  · exact mint_orientation_spec.1 pumpEnvC "P" 100 ⟨7, []⟩ ammP 2 rfl rfl rfl
      rfl (Or.inr rfl)
  · exact mint_orientation_spec.2 raydiumEnvC "R" 200 ⟨8, []⟩ ammR 2 rfl rfl
      rfl rfl (Or.inr rfl)

/-- C10: when the fetched pool passes the ownership and layout checks but
neither of its two mints equals the queried mint, both adapters still
return `Ok`, with `token_mint` set to the quote (resp. pc) mint and
`base_mint` to the base (resp. coin) mint — so `token_mint` differs from
the queried mint. -/
theorem foreign_mint_pool_accepted_spec :
    (∀ (env : PumpEnv) (addr : String) (pk : Pubkey) (acct : Account)
      (amm : PumpAmmInfo) (tm : Pubkey),
      env.parsePk addr = .ok pk →
      env.getAccount pk = .ok acct →
      acct.owner = env.programId →
      env.loadChecked acct.data = .ok amm →
      tm ≠ amm.base_mint →
      tm ≠ amm.quote_mint →
      (env.fetchSinglePool addr tm).toOption.map
          (fun pi => (pi.token_mint, pi.base_mint)) =
        some (amm.quote_mint, amm.base_mint) ∧
      amm.quote_mint ≠ tm) ∧
    (∀ (env : RaydiumEnv) (addr : String) (pk : Pubkey) (acct : Account)
      (amm : RaydiumAmmInfo) (tm : Pubkey),
      env.parsePk addr = .ok pk →
      env.getAccount pk = .ok acct →
      acct.owner = env.programId →
      env.loadChecked acct.data = .ok amm →
      tm ≠ amm.coin_mint →
      tm ≠ amm.pc_mint →
      (env.fetchSinglePool addr tm).toOption.map
          (fun pi => (pi.token_mint, pi.base_mint)) =
        some (amm.pc_mint, amm.coin_mint) ∧
      amm.pc_mint ≠ tm) := by
  constructor
  · intro env addr pk acct amm tm h1 h2 h3 h4 h5 h6
    refine ⟨?_, fun hq => h6 hq.symm⟩
    simp [PumpEnv.fetchSinglePool, h1, h2, h3, h4, h5, except_bind_ok,
      Except.toOption]
  · intro env addr pk acct amm tm h1 h2 h3 h4 h5 h6
    refine ⟨?_, fun hq => h6 hq.symm⟩
    simp [RaydiumEnv.fetchSinglePool, h1, h2, h3, h4, h5, except_bind_ok,
      Except.toOption]

/-- Witness for C10: querying mint 99 — matching neither side of the
concrete pools — is accepted by both adapters with `token_mint = 2` and
`base_mint = 1`. -/
theorem foreign_mint_pool_accepted_spec_witness :
    ((pumpEnvC.fetchSinglePool "P" 99).toOption.map
        (fun pi => (pi.token_mint, pi.base_mint)) =
      some (ammP.quote_mint, ammP.base_mint) ∧ ammP.quote_mint ≠ 99) ∧
    ((raydiumEnvC.fetchSinglePool "R" 99).toOption.map
        (fun pi => (pi.token_mint, pi.base_mint)) =
      some (ammR.pc_mint, ammR.coin_mint) ∧ ammR.pc_mint ≠ 99) := by
  constructor
  · exact foreign_mint_pool_accepted_spec.1 pumpEnvC "P" 100 ⟨7, []⟩ ammP 99
      rfl rfl rfl rfl (by decide) (by decide)
  · exact foreign_mint_pool_accepted_spec.2 raydiumEnvC "R" 200 ⟨8, []⟩ ammR
      99 rfl rfl rfl rfl (by decide) (by decide)

/-- C2 fails on the code: in the concrete Pump pool `ammP` the queried
mint 2 is the pool's quote mint (so the queried side's vault is the
quote-side vault 12), yet the adapter returns `token_vault = 11`, the
base-side (SOL-side) vault, because the vault pair is picked by the SOL
mint and not by the queried mint. -/
theorem vault_orientation_cex :
    (2 : Pubkey) = ammP.quote_mint ∧
    ammP.sideVault 2 = 12 ∧
    (pumpEnvC.fetchSinglePool "P" 2).toOption.map
        (fun pi => pi.token_vault) = some 11 ∧
    (11 : Pubkey) ≠ 12 := by
  refine ⟨rfl, by decide, rfl, by decide⟩

/-- C2 amended: in both adapters `token_vault`/`base_vault` are oriented by
the network's native (SOL) mint, not by the queried mint: when the SOL mint
equals one of the pool's two mints, `token_vault` is the vault of the
SOL-mint side and `base_vault` the vault of the other side; when the SOL
mint matches neither side, `token_vault` is the base-side (resp. coin-side)
vault and `base_vault` the quote-side (resp. pc-side) vault. -/
theorem vault_orientation_amended_spec :
    (∀ (env : PumpEnv) (addr : String) (pk : Pubkey) (acct : Account)
      (amm : PumpAmmInfo) (tm : Pubkey),
      env.parsePk addr = .ok pk →
      env.getAccount pk = .ok acct →
      acct.owner = env.programId →
      env.loadChecked acct.data = .ok amm →
      ((env.solMint = amm.base_mint ∨ env.solMint = amm.quote_mint) →
        (env.fetchSinglePool addr tm).toOption.map
            (fun pi => (pi.token_vault, pi.base_vault)) =
          some (amm.sideVault env.solMint, amm.otherVault env.solMint)) ∧
      (env.solMint ≠ amm.base_mint → env.solMint ≠ amm.quote_mint →
        (env.fetchSinglePool addr tm).toOption.map
            (fun pi => (pi.token_vault, pi.base_vault)) =
          some (amm.pool_base_token_account,
                amm.pool_quote_token_account))) ∧
    (∀ (env : RaydiumEnv) (addr : String) (pk : Pubkey) (acct : Account)
      (amm : RaydiumAmmInfo) (tm : Pubkey),
      env.parsePk addr = .ok pk →
      env.getAccount pk = .ok acct →
      acct.owner = env.programId →
      env.loadChecked acct.data = .ok amm →
      ((env.solMint = amm.coin_mint ∨ env.solMint = amm.pc_mint) →
        (env.fetchSinglePool addr tm).toOption.map
            (fun pi => (pi.token_vault, pi.base_vault)) =
          some (amm.sideVault env.solMint, amm.otherVault env.solMint)) ∧
      (env.solMint ≠ amm.coin_mint → env.solMint ≠ amm.pc_mint →
        (env.fetchSinglePool addr tm).toOption.map
            (fun pi => (pi.token_vault, pi.base_vault)) =
          some (amm.coin_vault, amm.pc_vault))) := by
  constructor
  · intro env addr pk acct amm tm h1 h2 h3 h4
    constructor
    · intro hsol
      by_cases hsb : env.solMint = amm.base_mint
      · simp [PumpEnv.fetchSinglePool, h1, h2, h3, h4, hsb,
          PumpAmmInfo.sideVault, PumpAmmInfo.otherVault, except_bind_ok,
          Except.toOption]
      · rcases hsol with hsol | hsol
        · exact absurd hsol hsb
        · have hqb : ¬amm.quote_mint = amm.base_mint :=
            fun h => hsb (hsol.trans h)
          simp [PumpEnv.fetchSinglePool, h1, h2, h3, h4, hsb, hsol, hqb,
            PumpAmmInfo.sideVault, PumpAmmInfo.otherVault, except_bind_ok,
            Except.toOption]
    · intro hsb hsq
      simp [PumpEnv.fetchSinglePool, h1, h2, h3, h4, hsb, hsq,
        except_bind_ok, Except.toOption]
  · intro env addr pk acct amm tm h1 h2 h3 h4
    constructor
    · intro hsol
      by_cases hsb : env.solMint = amm.coin_mint
      · simp [RaydiumEnv.fetchSinglePool, h1, h2, h3, h4, hsb,
          RaydiumAmmInfo.sideVault, RaydiumAmmInfo.otherVault,
          except_bind_ok, Except.toOption]
      · rcases hsol with hsol | hsol
        · exact absurd hsol hsb
        · have hqb : ¬amm.pc_mint = amm.coin_mint :=
            fun h => hsb (hsol.trans h)
          simp [RaydiumEnv.fetchSinglePool, h1, h2, h3, h4, hsb, hsol, hqb,
            RaydiumAmmInfo.sideVault, RaydiumAmmInfo.otherVault,
            except_bind_ok, Except.toOption]
    · intro hsb hsq
      simp [RaydiumEnv.fetchSinglePool, h1, h2, h3, h4, hsb, hsq,
        except_bind_ok, Except.toOption]

/-- Witness for the amended C2 at the concrete environments, where the SOL
mint (1) is the base (resp. coin) side: both adapters return the SOL-side
vault as `token_vault`. -/
theorem vault_orientation_amended_spec_witness :
    ((pumpEnvC.fetchSinglePool "P" 2).toOption.map
        (fun pi => (pi.token_vault, pi.base_vault)) =
      some (ammP.sideVault pumpEnvC.solMint,
            ammP.otherVault pumpEnvC.solMint)) ∧
    ((raydiumEnvC.fetchSinglePool "R" 2).toOption.map
        (fun pi => (pi.token_vault, pi.base_vault)) =
      some (ammR.sideVault raydiumEnvC.solMint,
            ammR.otherVault raydiumEnvC.solMint)) := by
  constructor
  · exact (vault_orientation_amended_spec.1 pumpEnvC "P" 100 ⟨7, []⟩ ammP 2
      rfl rfl rfl rfl).1 (Or.inl rfl)
  · exact (vault_orientation_amended_spec.2 raydiumEnvC "R" 200 ⟨8, []⟩ ammR
      2 rfl rfl rfl rfl).1 (Or.inl rfl)

/-- C7: in both adapters, a pool account whose owner differs from the
adapter's declared program id makes the single-pool fetch fail with an
ownership-mismatch error naming the address; the result is independent of
the layout decoder (the account is never decoded); and the batch fetch
returns exactly the pools of the other addresses, excluding the rejected
one. -/
theorem ownership_guard_spec :
    (∀ (env : PumpEnv) (addr : String) (pk : Pubkey) (acct : Account)
      (tm : Pubkey) (pre post : List String),
      env.parsePk addr = .ok pk →
      env.getAccount pk = .ok acct →
      acct.owner ≠ env.programId →
      env.fetchSinglePool addr tm =
        .error ("Account is not owned by Pump program: " ++ addr) ∧
      (∀ f, ({ env with loadChecked := f } : PumpEnv).fetchSinglePool addr
          tm =
        .error ("Account is not owned by Pump program: " ++ addr)) ∧
      env.fetchPools (pre ++ addr :: post) tm =
        env.fetchPools (pre ++ post) tm) ∧
    (∀ (env : RaydiumEnv) (addr : String) (pk : Pubkey) (acct : Account)
      (tm : Pubkey) (pre post : List String),
      env.parsePk addr = .ok pk →
      env.getAccount pk = .ok acct →
      acct.owner ≠ env.programId →
      env.fetchSinglePool addr tm =
        .error ("Account is not owned by Raydium program: " ++ addr) ∧
      (∀ f, ({ env with loadChecked := f } : RaydiumEnv).fetchSinglePool
          addr tm =
        .error ("Account is not owned by Raydium program: " ++ addr)) ∧
      env.fetchPools (pre ++ addr :: post) tm =
        env.fetchPools (pre ++ post) tm) := by
  constructor
  · intro env addr pk acct tm pre post h1 h2 h3
    have herr : env.fetchSinglePool addr tm =
        .error ("Account is not owned by Pump program: " ++ addr) := by
      simp [PumpEnv.fetchSinglePool, h1, h2, h3, except_bind_ok]
    refine ⟨herr, ?_, ?_⟩
    · intro f
      simp [PumpEnv.fetchSinglePool, h1, h2, h3, except_bind_ok]
    · simp only [PumpEnv.fetchPools, pumpCollect_append]
      have : pumpCollect env tm (addr :: post) = pumpCollect env tm post :=
        by simp only [pumpCollect, herr]
      rw [this]
  · intro env addr pk acct tm pre post h1 h2 h3
    have herr : env.fetchSinglePool addr tm =
        .error ("Account is not owned by Raydium program: " ++ addr) := by
      simp [RaydiumEnv.fetchSinglePool, h1, h2, h3, except_bind_ok]
    refine ⟨herr, ?_, ?_⟩
    · intro f
      simp [RaydiumEnv.fetchSinglePool, h1, h2, h3, except_bind_ok]
    · simp only [RaydiumEnv.fetchPools, raydiumCollect_append]
      have : raydiumCollect env tm (addr :: post) =
          raydiumCollect env tm post := by
        simp only [raydiumCollect, herr]
      rw [this]

/-- Concrete foreign-owned-account environments for the C7 witness: the
account owner (6) differs from the declared program ids (7 and 8). -/
def pumpEnvF : PumpEnv := { pumpEnvC with getAccount := fun _ => .ok ⟨6, []⟩ }

def raydiumEnvF : RaydiumEnv :=
  { raydiumEnvC with getAccount := fun _ => .ok ⟨6, []⟩ }

/-- Witness for C7 at the concrete foreign-owned accounts: the single pool
is rejected with the ownership error, independently of the decoder, and a
batch `["x", addr, "y"]` returns the same pools as `["x", "y"]`. -/
theorem ownership_guard_spec_witness :
    (pumpEnvF.fetchSinglePool "P" 2 =
        .error ("Account is not owned by Pump program: " ++ "P") ∧
      (∀ f, ({ pumpEnvF with loadChecked := f } : PumpEnv).fetchSinglePool
          "P" 2 =
        .error ("Account is not owned by Pump program: " ++ "P")) ∧
      pumpEnvF.fetchPools (["x"] ++ "P" :: ["y"]) 2 =
        pumpEnvF.fetchPools (["x"] ++ ["y"]) 2) ∧
    (raydiumEnvF.fetchSinglePool "R" 2 =
        .error ("Account is not owned by Raydium program: " ++ "R") ∧
      (∀ f,
        ({ raydiumEnvF with loadChecked := f } :
            RaydiumEnv).fetchSinglePool "R" 2 =
          .error ("Account is not owned by Raydium program: " ++ "R")) ∧
      raydiumEnvF.fetchPools (["x"] ++ "R" :: ["y"]) 2 =
        raydiumEnvF.fetchPools (["x"] ++ ["y"]) 2) := by
  constructor
  · exact ownership_guard_spec.1 pumpEnvF "P" 100 ⟨6, []⟩ 2 ["x"] ["y"] rfl
      rfl (by decide)
  · exact ownership_guard_spec.2 raydiumEnvF "R" 200 ⟨6, []⟩ 2 ["x"] ["y"]
      rfl rfl (by decide)

/-! ## Orchestrator lemmas -/

theorem cacheLookup_insert_self (c : Cache) (k : String) (e : CacheEntry) :
    cacheLookup (cacheInsert c k e) k = some e := by
  simp [cacheLookup, cacheInsert, List.find?]

theorem cacheLookup_insert_ne (c : Cache) (k k' : String) (e : CacheEntry)
    (h : k ≠ k') :
    cacheLookup (cacheInsert c k' e) k = cacheLookup c k := by
  have hks : ¬(k' = k) := fun hk => h hk.symm
  simp only [cacheLookup, cacheInsert]
  rw [List.find?_cons_of_neg _ (by simpa using hks)]
  congr 1
  induction c with
  | nil => rfl
  | cons p rest ih =>
    by_cases hp : p.1 = k'
    · have hpk : ¬(p.1 = k) := by rw [hp]; exact hks
      rw [List.filter_cons_of_neg (by simpa using hp),
        List.find?_cons_of_neg _ (by simpa using hpk)]
      exact ih
    · rw [List.filter_cons_of_pos (by simpa using hp)]
      by_cases hk : p.1 = k
      · rw [List.find?_cons_of_pos _ (by simpa using hk),
          List.find?_cons_of_pos _ (by simpa using hk)]
      · rw [List.find?_cons_of_neg _ (by simpa using hk),
          List.find?_cons_of_neg _ (by simpa using hk)]
        exact ih

theorem initializePoolData_miss (env : OrchEnv) (cfg : TokenFetchConfig)
    (cache : Cache) (now : Nat) (mint wallet : String)
    (rp pp : Option (List String))
    (hmiss : cacheLookup cache (cacheKey mint wallet) = none) :
    initializePoolData env cfg cache now mint wallet rp pp =
      initializeFresh env cfg cache now mint wallet rp pp := by
  unfold initializePoolData
  cases hcfg : cfg.enable_caching <;> simp [hcfg, hmiss]

/-- C5: `determine_token_program` classifies a mint account owned by the
standard token program as that program, one owned by the 2022 program as
the 2022 program, and fails with an error naming the mint for any other
owner; and in the failure case the orchestrator call fails with that error
before any per-exchange pool fetch, leaving the cache unchanged. -/
theorem token_program_resolution_spec :
    (∀ (splTokenId : Pubkey) (acct : Account) (mint : String),
      acct.owner = splTokenId →
      determineTokenProgram splTokenId acct mint = .ok splTokenId) ∧
    (∀ (splTokenId : Pubkey) (acct : Account) (mint : String),
      acct.owner ≠ splTokenId →
      acct.owner = TOKEN_2022_PROGRAM_ID →
      determineTokenProgram splTokenId acct mint =
        .ok TOKEN_2022_PROGRAM_ID) ∧
    (∀ (splTokenId : Pubkey) (acct : Account) (mint : String),
      acct.owner ≠ splTokenId →
      acct.owner ≠ TOKEN_2022_PROGRAM_ID →
      determineTokenProgram splTokenId acct mint =
        .error ("Unknown token program for mint: " ++ mint)) ∧
    (∀ (env : OrchEnv) (cfg : TokenFetchConfig) (cache : Cache) (now : Nat)
      (mint wallet : String) (rp pp : Option (List String)) (mpk : Pubkey)
      (acct : Account),
      cacheLookup cache (cacheKey mint wallet) = none →
      env.parsePk mint = .ok mpk →
      1 ≤ cfg.max_retries →
      env.readAccount mpk 0 = .ok acct →
      acct.owner ≠ env.splTokenId →
      acct.owner ≠ TOKEN_2022_PROGRAM_ID →
      (initializePoolData env cfg cache now mint wallet rp pp).result =
        .error ("Unknown token program for mint: " ++ mint) ∧
      hasPoolFetch
        (initializePoolData env cfg cache now mint wallet rp pp).events =
        false ∧
      (initializePoolData env cfg cache now mint wallet rp pp).cache =
        cache) := by
  refine ⟨?_, ?_, ?_, ?_⟩
  · intro splTokenId acct mint h
    simp [determineTokenProgram, h]
  · intro splTokenId acct mint h1 h2
    by_cases hc : TOKEN_2022_PROGRAM_ID = splTokenId
    · simp [determineTokenProgram, h2, hc]
    · simp [determineTokenProgram, h2, hc]
  · intro splTokenId acct mint h1 h2
    simp [determineTokenProgram, h1, h2]
  · intro env cfg cache now mint wallet rp pp mpk acct hmiss hparse hM hread
      hown1 hown2
    rw [initializePoolData_miss env cfg cache now mint wallet rp pp hmiss]
    match hMR : cfg.max_retries, hM with
    | m + 1, _ =>
      have hfetch : fetchAccountWithRetry (env.readAccount mpk) mpk
          (m + 1) cfg.retry_delay_ms = (.ok acct, [Ev.readEv 0]) := by
        unfold fetchAccountWithRetry
        exact fetchRetryAux_step_ok (env.readAccount mpk) mpk (m + 1)
          cfg.retry_delay_ms m 0 none acct hread
      simp [initializeFresh, hparse, hMR, hfetch, determineTokenProgram,
        hown1, hown2, hasPoolFetch]

/-- Concrete environment with a mint account owned by program 4, which is
neither the standard token program (3) nor the 2022 program. -/
def envU : OrchEnv :=
  { parsePk := fun _ => .ok 50,
    readAccount := fun _ _ => .ok ⟨4, []⟩,
    splTokenId := 3,
    pumpFetchPools := fun _ _ => .ok [],
    raydiumFetchPools := fun _ _ => .ok [] }

/-- Witness for C5: concrete classifications of the three owner cases, and
the concrete orchestrator call on `envU` failing with the
unknown-token-program error, no pool fetch made, cache unchanged. -/
theorem token_program_resolution_spec_witness :
    determineTokenProgram 3 ⟨3, []⟩ "m" = .ok 3 ∧
    determineTokenProgram 3 ⟨TOKEN_2022_PROGRAM_ID, []⟩ "m" =
      .ok TOKEN_2022_PROGRAM_ID ∧
    determineTokenProgram 3 ⟨4, []⟩ "m" =
      .error ("Unknown token program for mint: " ++ "m") ∧
    ((initializePoolData envU TokenFetchConfig.default [] 0 "m" "w" none
        none).result =
      .error ("Unknown token program for mint: " ++ "m") ∧
     hasPoolFetch (initializePoolData envU TokenFetchConfig.default [] 0
        "m" "w" none none).events = false ∧
     (initializePoolData envU TokenFetchConfig.default [] 0 "m" "w" none
        none).cache = []) := by
  refine ⟨?_, ?_, ?_, ?_⟩
  · exact token_program_resolution_spec.1 3 ⟨3, []⟩ "m" rfl
  · exact token_program_resolution_spec.2.1 3 ⟨TOKEN_2022_PROGRAM_ID, []⟩
      "m" (by decide) rfl
  · exact token_program_resolution_spec.2.2.1 3 ⟨4, []⟩ "m" (by decide)
      (by decide)
  · exact token_program_resolution_spec.2.2.2 envU TokenFetchConfig.default
      [] 0 "m" "w" none none 50 ⟨4, []⟩ rfl rfl (by decide) rfl (by decide)
      (by decide)

/-- C6: with caching enabled, a cache entry for `(mint, wallet)` whose age
is strictly below `cache_ttl_seconds` makes the call return the cached
aggregate with an empty event trace (zero account reads) and an unchanged
cache; an entry whose age is at least the ttl is treated as absent — the
call behaves exactly like the full fetch on the unchanged cache (the read
path evicts nothing). -/
theorem cache_ttl_spec (env : OrchEnv) (cfg : TokenFetchConfig)
    (cache : Cache) (now : Nat) (mint wallet : String)
    (rp pp : Option (List String)) (entry : CacheEntry)
    (hc : cfg.enable_caching = true)
    (he : cacheLookup cache (cacheKey mint wallet) = some entry) :
    (now - entry.timestamp < cfg.cache_ttl_seconds →
      initializePoolData env cfg cache now mint wallet rp pp =
        { result := .ok entry.data, cache := cache, events := [] }) ∧
    (cfg.cache_ttl_seconds ≤ now - entry.timestamp →
      initializePoolData env cfg cache now mint wallet rp pp =
        initializeFresh env cfg cache now mint wallet rp pp) := by
  constructor
  · intro hage
    unfold initializePoolData
    simp [hc, he, hage]
  · intro hage
    unfold initializePoolData
    simp [hc, he, Nat.not_lt.mpr hage]

/-- Sample aggregate and cache used by the C6 and C8 witnesses. -/
def pdW : MintPoolData := MintPoolData.new "m" "w" 3

def cacheW : Cache := [(cacheKey "m" "w", ⟨pdW, 10⟩)]

/-- Witness for C6 on a concrete cache holding an entry stamped at second
10 with the default ttl of 300: at `now = 20` the call returns the cached
aggregate with no events; at `now = 400` it equals the full fetch. -/
theorem cache_ttl_spec_witness :
    (initializePoolData envU TokenFetchConfig.default cacheW 20 "m" "w"
        none none =
      { result := .ok pdW, cache := cacheW, events := [] }) ∧
    (initializePoolData envU TokenFetchConfig.default cacheW 400 "m" "w"
        none none =
      initializeFresh envU TokenFetchConfig.default cacheW 400 "m" "w"
        none none) := by
  constructor
  · exact (cache_ttl_spec envU TokenFetchConfig.default cacheW 20 "m" "w"
      none none ⟨pdW, 10⟩ rfl rfl).1 (by decide)
  · exact (cache_ttl_spec envU TokenFetchConfig.default cacheW 400 "m" "w"
      none none ⟨pdW, 10⟩ rfl rfl).2 (by decide)

theorem initializeFresh_cases (env : OrchEnv) (cfg : TokenFetchConfig)
    (cache : Cache) (now : Nat) (mint wallet : String)
    (rp pp : Option (List String)) :
    (∃ e, (initializeFresh env cfg cache now mint wallet rp pp).result =
        .error e ∧
      (initializeFresh env cfg cache now mint wallet rp pp).cache =
        cache) ∨
    (∃ pd, (initializeFresh env cfg cache now mint wallet rp pp).result =
        .ok pd ∧
      (initializeFresh env cfg cache now mint wallet rp pp).cache =
        (if cfg.enable_caching then
          cacheInsert cache (cacheKey mint wallet) ⟨pd, now⟩
        else cache)) := by
  unfold initializeFresh
  rcases hp : env.parsePk mint with e | mpk
  · left
    exact ⟨e, rfl, rfl⟩
  · simp only [hp]
    rcases hf : (fetchAccountWithRetry (env.readAccount mpk) mpk
        cfg.max_retries cfg.retry_delay_ms).1 with f | acct
    · simp only [hf]
      left
      simp
    · simp only [hf]
      rcases hd : determineTokenProgram env.splTokenId acct mint with e | tp
      · simp only [hd]
        left
        simp
      · simp only [hd]
        rcases hr : (runDexes env mpk (MintPoolData.new mint wallet tp)
            [("pump", pp), ("raydium", rp)]).1 with e | pd
        · simp only [hr]
          left
          simp
        · simp only [hr]
          right
          simp

theorem initializeFresh_frame (env : OrchEnv) (cfg : TokenFetchConfig)
    (cache : Cache) (now : Nat) (mint wallet : String)
    (rp pp : Option (List String)) (k : String)
    (hk : k ≠ cacheKey mint wallet) :
    cacheLookup (initializeFresh env cfg cache now mint wallet rp pp).cache
      k = cacheLookup cache k := by
  rcases initializeFresh_cases env cfg cache now mint wallet rp pp with
    ⟨e, _, hcache⟩ | ⟨pd, _, hcache⟩
  · rw [hcache]
  · rw [hcache]
    by_cases hcfg : cfg.enable_caching = true
    · rw [if_pos hcfg]
      exact cacheLookup_insert_ne cache k (cacheKey mint wallet) _ hk
    · rw [if_neg hcfg]

theorem initializePoolData_frame (env : OrchEnv) (cfg : TokenFetchConfig)
    (cache : Cache) (now : Nat) (mint wallet : String)
    (rp pp : Option (List String)) (k : String)
    (hk : k ≠ cacheKey mint wallet) :
    cacheLookup
      (initializePoolData env cfg cache now mint wallet rp pp).cache k =
      cacheLookup cache k := by
  unfold initializePoolData
  by_cases hcfg : cfg.enable_caching = true
  · simp only [hcfg, if_true]
    rcases hl : cacheLookup cache (cacheKey mint wallet) with _ | entry
    · exact initializeFresh_frame env cfg cache now mint wallet rp pp k hk
    · by_cases hage : now - entry.timestamp < cfg.cache_ttl_seconds
      · simp only [if_pos hage]
      · simp only [if_neg hage]
        exact initializeFresh_frame env cfg cache now mint wallet rp pp k hk
  · simp only [hcfg, if_false]
    exact initializeFresh_frame env cfg cache now mint wallet rp pp k hk

/-- C8: the cache holds value-copy snapshots: (i) a successful fresh call
with caching enabled leaves, under its own key, exactly the aggregate it
returned, stamped with the call time; (ii) any later orchestrator call
whose cache key differs leaves that stored entry untouched; (iii) a cache
hit returns exactly the stored snapshot value. Later changes to the value
returned to the caller are invisible through the cache, which only ever
holds the value recorded at insertion. -/
theorem cache_snapshot_frame_spec :
    (∀ (env : OrchEnv) (cfg : TokenFetchConfig) (cache : Cache) (now : Nat)
      (mint wallet : String) (rp pp : Option (List String))
      (pd : MintPoolData),
      cfg.enable_caching = true →
      (initializeFresh env cfg cache now mint wallet rp pp).result =
        .ok pd →
      cacheLookup
        (initializeFresh env cfg cache now mint wallet rp pp).cache
        (cacheKey mint wallet) = some ⟨pd, now⟩) ∧
    (∀ (env : OrchEnv) (cfg : TokenFetchConfig) (cache : Cache) (now : Nat)
      (mint wallet : String) (rp pp : Option (List String)) (k : String),
      k ≠ cacheKey mint wallet →
      cacheLookup
        (initializePoolData env cfg cache now mint wallet rp pp).cache k =
        cacheLookup cache k) ∧
    (∀ (env : OrchEnv) (cfg : TokenFetchConfig) (cache : Cache) (now : Nat)
      (mint wallet : String) (rp pp : Option (List String))
      (pd : MintPoolData) (t : Nat),
      cfg.enable_caching = true →
      cacheLookup cache (cacheKey mint wallet) = some ⟨pd, t⟩ →
      now - t < cfg.cache_ttl_seconds →
      (initializePoolData env cfg cache now mint wallet rp pp).result =
        .ok pd) := by
  refine ⟨?_, ?_, ?_⟩
  · intro env cfg cache now mint wallet rp pp pd hcfg hok
    rcases initializeFresh_cases env cfg cache now mint wallet rp pp with
      ⟨e, hres, _⟩ | ⟨pd', hres, hcache⟩
    · rw [hok] at hres
      exact absurd hres (by simp)
    · rw [hok] at hres
      have hpd : pd' = pd := by
        injection hres.symm
      subst hpd
      rw [hcache, if_pos hcfg]
      exact cacheLookup_insert_self cache (cacheKey mint wallet) _
  · intro env cfg cache now mint wallet rp pp k hk
    exact initializePoolData_frame env cfg cache now mint wallet rp pp k hk
  · intro env cfg cache now mint wallet rp pp pd t hcfg he hage
    unfold initializePoolData
    simp [hcfg, he, hage]

/-- Concrete environment on which the full fetch succeeds: the mint account
is owned by the standard token program (3) and both adapters return no
pools. -/
def envOk : OrchEnv :=
  { parsePk := fun _ => .ok 50,
    readAccount := fun _ _ => .ok ⟨3, []⟩,
    splTokenId := 3,
    pumpFetchPools := fun _ _ => .ok [],
    raydiumFetchPools := fun _ _ => .ok [] }

/-- Witness for C8: a concrete successful fresh call stores its returned
aggregate under its key stamped at the call time; a concrete call under a
different key leaves the entry of `cacheW` unchanged; a concrete hit
returns the stored snapshot. -/
theorem cache_snapshot_frame_spec_witness :
    cacheLookup
      (initializeFresh envOk TokenFetchConfig.default [] 5 "m" "w" none
        none).cache (cacheKey "m" "w") = some ⟨pdW, 5⟩ ∧
    cacheLookup
      (initializePoolData envU TokenFetchConfig.default cacheW 400 "m2"
        "w2" none none).cache (cacheKey "m" "w") =
      cacheLookup cacheW (cacheKey "m" "w") ∧
    (initializePoolData envU TokenFetchConfig.default cacheW 20 "m" "w"
      none none).result = .ok pdW := by
  refine ⟨?_, ?_, ?_⟩
  · exact cache_snapshot_frame_spec.1 envOk TokenFetchConfig.default [] 5
      "m" "w" none none pdW rfl rfl
  · exact cache_snapshot_frame_spec.2.1 envU TokenFetchConfig.default
      cacheW 400 "m2" "w2" none none (cacheKey "m" "w") (by decide)
  · exact cache_snapshot_frame_spec.2.2 envU TokenFetchConfig.default
      cacheW 20 "m" "w" none none pdW 10 rfl rfl (by decide)

/-- A `PoolInfo` whose auxiliary mapping lacks `coin_creator_vault_ata`,
as the `Dex` trait allows an adapter to produce. -/
def piBad : PoolInfo :=
  { pool_address := 55, token_mint := 2, base_mint := 1, token_vault := 11,
    base_vault := 12, fee_wallet := none, additional_accounts := [] }

/-- Environment whose pump adapter successfully returns the single pool
`piBad`; mint account owned by the standard token program (3). -/
def env1 : OrchEnv :=
  { parsePk := fun _ => .ok 50,
    readAccount := fun _ _ => .ok ⟨3, []⟩,
    splTokenId := 3,
    pumpFetchPools := fun _ _ => .ok [piBad],
    raydiumFetchPools := fun _ _ => .ok [] }

/-- C1 fails on the code: in this orchestrator call the pump fetch succeeds
with one pool whose `coin_creator_vault_ata` auxiliary key is absent, and
the whole call aborts with the conversion error instead of returning a
successful partial aggregate — the `?` on `convert_and_add_pools`
propagates the failure. -/
theorem conversion_failure_aborts_call_cex :
    env1.pumpFetchPools ["p1"] 50 = .ok [piBad] ∧
    lookupAux piBad.additional_accounts "coin_creator_vault_ata" = none ∧
    (initializePoolData env1 TokenFetchConfig.default [] 0 "m" "w" none
      (some ["p1"])).result =
      .error "Missing coin_creator_vault_ata for Pump pool" :=
  ⟨rfl, rfl, rfl⟩

/-- C1 amended: a failure of one exchange's `fetch_pools` call is caught
and only that exchange is omitted — the call still succeeds with the other
exchange's converted pools; but a failure while converting one fetched
pool (a missing `coin_creator_vault_ata` key) is not caught: it aborts the
whole call with that error. -/
theorem partial_failure_amended_spec :
    (∀ (env : OrchEnv) (cfg : TokenFetchConfig) (cache : Cache) (now : Nat)
      (mint wallet : String) (paddrs raddrs : List String) (mpk : Pubkey)
      (acct : Account) (tp : Pubkey) (e : String)
      (rpools : List PoolInfo),
      cacheLookup cache (cacheKey mint wallet) = none →
      env.parsePk mint = .ok mpk →
      1 ≤ cfg.max_retries →
      env.readAccount mpk 0 = .ok acct →
      determineTokenProgram env.splTokenId acct mint = .ok tp →
      env.pumpFetchPools paddrs mpk = .error e →
      env.raydiumFetchPools raddrs mpk = .ok rpools →
      (initializePoolData env cfg cache now mint wallet (some raddrs)
        (some paddrs)).result =
        .ok { mint := mint, wallet := wallet, token_program := tp,
              pump_pools := [],
              raydium_pools := rpools.map poolInfoToRaydiumPool }) ∧
    (∀ (env : OrchEnv) (cfg : TokenFetchConfig) (cache : Cache) (now : Nat)
      (mint wallet : String) (paddrs : List String)
      (rp : Option (List String)) (mpk : Pubkey) (acct : Account)
      (tp : Pubkey) (pi : PoolInfo) (rest : List PoolInfo),
      cacheLookup cache (cacheKey mint wallet) = none →
      env.parsePk mint = .ok mpk →
      1 ≤ cfg.max_retries →
      env.readAccount mpk 0 = .ok acct →
      determineTokenProgram env.splTokenId acct mint = .ok tp →
      env.pumpFetchPools paddrs mpk = .ok (pi :: rest) →
      lookupAux pi.additional_accounts "coin_creator_vault_ata" = none →
      (initializePoolData env cfg cache now mint wallet rp
        (some paddrs)).result =
        .error "Missing coin_creator_vault_ata for Pump pool") := by
  constructor
  · intro env cfg cache now mint wallet paddrs raddrs mpk acct tp e rpools
      hmiss hparse hM hread hdet hpump hray
    rw [initializePoolData_miss env cfg cache now mint wallet
      (some raddrs) (some paddrs) hmiss]
    match hMR : cfg.max_retries, hM with
    | m + 1, _ =>
      have hfetch : fetchAccountWithRetry (env.readAccount mpk) mpk
          (m + 1) cfg.retry_delay_ms = (.ok acct, [Ev.readEv 0]) := by
        unfold fetchAccountWithRetry
        exact fetchRetryAux_step_ok (env.readAccount mpk) mpk (m + 1)
          cfg.retry_delay_ms m 0 none acct hread
      simp [initializeFresh, hparse, hMR, hfetch, hdet, runDexes,
        dexFetchOf, hpump, hray, convertAndAddPools, MintPoolData.new]
  · intro env cfg cache now mint wallet paddrs rp mpk acct tp pi rest hmiss
      hparse hM hread hdet hpump haux
    rw [initializePoolData_miss env cfg cache now mint wallet rp
      (some paddrs) hmiss]
    match hMR : cfg.max_retries, hM with
    | m + 1, _ =>
      have hfetch : fetchAccountWithRetry (env.readAccount mpk) mpk
          (m + 1) cfg.retry_delay_ms = (.ok acct, [Ev.readEv 0]) := by
        unfold fetchAccountWithRetry
        exact fetchRetryAux_step_ok (env.readAccount mpk) mpk (m + 1)
          cfg.retry_delay_ms m 0 none acct hread
      simp [initializeFresh, hparse, hMR, hfetch, hdet, runDexes,
        dexFetchOf, hpump, convertAndAddPools, convertPumpPools, haux,
        MintPoolData.new, except_bind_ok, except_bind_err]

/-- Environment whose pump adapter fails outright while the raydium
adapter succeeds with no pools. -/
def env1b : OrchEnv := { env1 with pumpFetchPools := fun _ _ => .error "x" }

/-- Witness for the amended C1: on `env1b` the pump fetch failure is
swallowed and the call returns the aggregate with the pump list empty,
while on `env1` the conversion failure aborts the call. -/
theorem partial_failure_amended_spec_witness :
    (initializePoolData env1b TokenFetchConfig.default [] 0 "m" "w"
      (some []) (some ["p1"])).result =
      .ok { mint := "m", wallet := "w", token_program := 3,
            pump_pools := [],
            raydium_pools := List.map poolInfoToRaydiumPool [] } ∧
    (initializePoolData env1 TokenFetchConfig.default [] 0 "m" "w" none
      (some ["p1"])).result =
      .error "Missing coin_creator_vault_ata for Pump pool" := by
  constructor
  · exact partial_failure_amended_spec.1 env1b TokenFetchConfig.default []
      0 "m" "w" ["p1"] [] 50 ⟨3, []⟩ 3 "x" [] rfl rfl (by decide) rfl rfl
      rfl rfl
  · exact partial_failure_amended_spec.2 env1 TokenFetchConfig.default []
      0 "m" "w" ["p1"] none 50 ⟨3, []⟩ 3 piBad [] rfl rfl (by decide) rfl
      rfl rfl rfl

/-- Aggregate cached by a hypothetical earlier call for
`(mint = "a", wallet = "b_c")`. -/
def pd9 : MintPoolData := MintPoolData.new "a" "b_c" 77

/-- Cache whose only entry sits under the key produced by both
`("a", "b_c")` and `("a_b", "c")`. -/
def cache9 : Cache := [(cacheKey "a" "b_c", ⟨pd9, 0⟩)]

/-- Environment whose address parser rejects every mint string. -/
def env9 : OrchEnv :=
  { parsePk := fun _ => .error "Invalid mint address",
    readAccount := fun _ _ => .error "unreachable",
    splTokenId := 3,
    pumpFetchPools := fun _ _ => .ok [],
    raydiumFetchPools := fun _ _ => .ok [] }

/-- C9: the cache key `mint ++ "_" ++ wallet` is not injective — the
distinct pairs `("a", "b_c")` and `("a_b", "c")` collide — so a call for
`("a_b", "c")` returns the aggregate cached for `("a", "b_c")`; and the
hit happens before mint validation: the mint string "a_b" is rejected by
the parser, yet the call still succeeds from the cache. -/
theorem cache_key_collision_spec :
    cacheKey "a" "b_c" = cacheKey "a_b" "c" ∧
    (("a", "b_c") : String × String) ≠ ("a_b", "c") ∧
    (initializePoolData env9 TokenFetchConfig.default cache9 10 "a_b" "c"
      none none).result = .ok pd9 ∧
    env9.parsePk "a_b" = .error "Invalid mint address" := by
  refine ⟨rfl, by decide, rfl, rfl⟩
